import Mathlib

/-!
Verification development for the onyx crop-bed control layer
(repository F-Workonyx).  The definitions below are a shallow embedding of
the Rust sources:

* src/onyx/src/components/crop_bed/actuating/power.rs
  (spray scheduling core: ingestion and firing loop),
* src/onyx/src/devices/hardware/camera.rs
  (camera build-time checks and the per-camera capture loop).

Times are modelled in integer microseconds: UTC instants
(chrono DateTime of Utc) and monotonic instants (tokio Instant) both become
Int, and chrono Durations become Int microsecond counts, so
Duration seconds 1 is 1000000 and Duration milliseconds 100 is 100000.
Duty cycles, which in the source are the f64 literals 0.0 and 100.0, are
modelled as the Nat percentages 0 and 100.  Channel numbers (u8 in the
source) are modelled as Nat; no claim exercises u8 overflow.
-/

/-- One call to Pdm driver actuate_channels in power.rs: the PDM map index
it is looked up under, the parameter group number, the channel list and the
duty percentage. -/
structure Actuation where
  pdmIndex : Nat
  pgn : Nat
  channels : List Nat
  duty : Nat
deriving DecidableEq

/-- WeedQueueMessage from power.rs: one entry of the firing queue. -/
structure WeedQueueMessage where
  channels : List Nat
  time_to_fire : Int
  is_on : Bool
  original_spray_starts : Int
  original_spray_ending : Int
deriving DecidableEq

/-- Modelled from the spec: the inbound weed message (spec section 6).  The
declaring file src/onyx/src/messages/control/weed.rs is not present under
src/; the three fields are exactly the ones handle_connection in power.rs
reads: channels_to_open (0-indexed channel list), start_spray_time and
end_spray_time (UTC instants). -/
structure WeedMessage where
  channels_to_open : List Nat
  start_spray_time : Int
  end_spray_time : Int
deriving DecidableEq

/-- The optional channel map of CropBedPowerConfig in power.rs:
physical channel to (wired_channel, pdm_index). -/
abbrev ChannelMap : Type := Nat → Option (Nat × Nat)

/-- SPRAY_BOUND in power.rs: microsecond tolerance for firing. -/
def SPRAY_BOUND : Int := 5

/-- The literal channel vector vec![1,...,12] of the heartbeat branch of
CropBedPower::process_message_queue in power.rs. -/
def heartbeatChannels : List Nat := [1, 2, 3, 4, 5, 6, 7, 8, 9, 10, 11, 12]

/-- The single-channel branch of CropBedPower::process_message_queue
(power.rs, message.channels.len() == 1 case).  pdms models which keys the
self.pdms map holds, so pdms i = true mirrors self.pdms.get returning
Some. -/
def fireSingle (pdms : Nat → Bool) (c : Nat) (isOn : Bool) : List Actuation :=
  let pwm : Nat := if isOn then 100 else 0
  if c ≤ 12 then
    if pdms 0 then [Actuation.mk 0 17 [c] pwm] else []
  else
    if pdms 1 then [Actuation.mk 1 17 [c - 12] pwm] else []

/-- The multi-channel branch of CropBedPower::process_message_queue
(power.rs): partition on channel value at most 12, send the low part to the
PDM at map index 0 unchanged and the high part to the PDM at map index 1
after subtracting 12, each guarded by nonemptiness and map presence. -/
def fireMulti (pdms : Nat → Bool) (channels : List Nat) (isOn : Bool) : List Actuation :=
  let pwm : Nat := if isOn then 100 else 0
  let part := channels.partition (fun x => decide (x ≤ 12))
  (if part.1.isEmpty then []
   else if pdms 0 then [Actuation.mk 0 17 part.1 pwm] else []) ++
  (if part.2.isEmpty then []
   else if pdms 1 then [Actuation.mk 1 17 (part.2.map (fun x => x - 12)) pwm] else [])

/-- The firing dispatch of CropBedPower::process_message_queue in power.rs:
a one-element channel list takes the dedicated single-channel branch, any
other list takes the partition branch. -/
def fireActions (pdms : Nat → Bool) (channels : List Nat) (isOn : Bool) : List Actuation :=
  match channels with
  | [c] => fireSingle pdms c isOn
  | _ => fireMulti pdms channels isOn

/-- peek_min of the DoublePriorityQueue in power.rs, on the queue contents
modelled as a list: an entry of minimal time_to_fire (the priority the
queue is pushed with).  Ties are unspecified in the queue contract; this
model keeps the earliest-listed minimum. -/
def peekMin : List WeedQueueMessage → Option WeedQueueMessage
  | [] => none
  | m :: rest =>
    match peekMin rest with
    | none => some m
    | some m2 => if m.time_to_fire ≤ m2.time_to_fire then some m else some m2

/-- pop_min of the DoublePriorityQueue in power.rs: remove the entry that
peek_min returns. -/
def popMin (q : List WeedQueueMessage) : List WeedQueueMessage :=
  match peekMin q with
  | none => q
  | some m => q.erase m

/-- Result of one iteration of CropBedPower::process_message_queue: the
actuate calls issued, the remaining queue and the returned last_fire. -/
structure StepResult where
  actions : List Actuation
  queue : List WeedQueueMessage
  lastFire : Int
deriving DecidableEq

/-- One call of CropBedPower::process_message_queue in power.rs.  utcNow is
the Utc::now() sample, monoNow the monotonic clock at this iteration and
lastFire the incoming last_fire Instant; the source's several Instant::now()
samples within one call are collapsed onto monoNow.  The source converts
the priority delta with num_microseconds(), which is exact in this integer
microsecond model.  500 ms is 500000 microseconds. -/
def processMessageQueue (pdms : Nat → Bool) (queue : List WeedQueueMessage)
    (utcNow monoNow lastFire : Int) : StepResult :=
  let fired : StepResult :=
    match peekMin queue with
    | none => StepResult.mk [] queue lastFire
    | some message =>
      if message.time_to_fire < utcNow then
        StepResult.mk [] (popMin queue) lastFire
      else if message.time_to_fire - utcNow < SPRAY_BOUND then
        StepResult.mk (fireActions pdms message.channels message.is_on) (popMin queue) monoNow
      else
        StepResult.mk [] queue lastFire
  if 500000 < monoNow - fired.lastFire then
    StepResult.mk
      (fired.actions ++
        (if pdms 0 then [Actuation.mk 0 17 heartbeatChannels 0] else []) ++
        (if pdms 1 then [Actuation.mk 1 17 heartbeatChannels 0] else []))
      fired.queue monoNow
  else fired

/-- The per-channel body of the remapping loop in handle_connection
(power.rs): with a channel map set, look up channel + 1 and keep only the
wired_channel component; without a map, use channel + 1 directly.  none
models the .expect panic on a missing map entry. -/
def convertChannel (cmap : Option ChannelMap) (ch : Nat) : Option Nat :=
  match cmap with
  | some m => (m (ch + 1)).map Prod.fst
  | none => some (ch + 1)

/-- The remapping loop of handle_connection in power.rs over the whole
channels_to_open list; a missing map entry aborts the whole connection
before anything is enqueued, modelled by none. -/
def remapChannels (cmap : Option ChannelMap) : List Nat → Option (List Nat)
  | [] => some []
  | ch :: rest => do
    let c ← convertChannel cmap ch
    let cs ← remapChannels cmap rest
    pure (c :: cs)

/-- The while loop of the long-spray branch of handle_connection
(power.rs): while delta exceeds 100 ms, push an on entry at
time_to_fire + 100 ms, advance time_to_fire by 100 ms and shrink delta by
100 ms. -/
def longSprayOns (chs : List Nat) (starts ends : Int) (ttf delta : Int) :
    List WeedQueueMessage :=
  if h : 100000 < delta then
    WeedQueueMessage.mk chs (ttf + 100000) true starts ends ::
      longSprayOns chs starts ends (ttf + 100000) (delta - 100000)
  else []
termination_by delta.toNat
decreasing_by
  simp_wf
  omega

/-- The message-accepted path of handle_connection in power.rs, returning
the entries pushed onto the queue in push order.  A stale message
(start_spray_time not after now) is dropped, contributing no entries; a
missing channel-map entry propagates as none (panic).  Durations compare in
microseconds: 1 s is 1000000 and 100 ms is 100000. -/
def ingestSpray (cmap : Option ChannelMap) (now : Int) (msg : WeedMessage) :
    Option (List WeedQueueMessage) :=
  if now < msg.start_spray_time then
    match remapChannels cmap msg.channels_to_open with
    | none => none
    | some channels =>
      if 1000000 < msg.end_spray_time - msg.start_spray_time then
        some (longSprayOns channels msg.start_spray_time msg.end_spray_time
                msg.start_spray_time (msg.end_spray_time - msg.start_spray_time) ++
              [WeedQueueMessage.mk channels msg.end_spray_time false
                msg.start_spray_time msg.end_spray_time])
      else
        some [WeedQueueMessage.mk channels msg.start_spray_time true
                msg.start_spray_time msg.end_spray_time,
              WeedQueueMessage.mk channels msg.end_spray_time false
                msg.start_spray_time msg.end_spray_time]
  else some []

/-- handle_connection (power.rs) as a transformer of the queue contents:
the accepted entries are pushed onto the existing queue, and a channel-map
panic is none. -/
def handleConnectionStep (cmap : Option ChannelMap) (now : Int) (msg : WeedMessage)
    (queue : List WeedQueueMessage) : Option (List WeedQueueMessage) :=
  (ingestSpray cmap now msg).map (fun es => queue ++ es)

/-- Roi from utils/image.rs: region of interest with i32 fields, modelled
as Int. -/
structure Roi where
  x : Int
  y : Int
  w : Int
  h : Int
deriving DecidableEq

/-- The iterator (2..=maxB).step_by(2) used by the binning assertions of
OnyxCamera::build_from_config in camera.rs: the values 2, 4, ... up to
maxB. -/
def binSteps (maxB : Int) : List Int :=
  (List.range (maxB.toNat / 2)).map (fun i => 2 * ((i : Int) + 1))

/-- The binning assertions of OnyxCamera::build_from_config in camera.rs
when an ROI is configured and binning is available: the Y-direction loop
asserts roi.h % y == 0 for every step y up to maxY, and the X-direction
loop asserts roi.x % x == 0 for every step x up to maxX.  The function is
true exactly when no assert fires.  Rust % on i32 is truncated remainder,
Int.tmod. -/
def roiBinningAsserts (roi : Roi) (maxY maxX : Int) : Bool :=
  ((binSteps maxY).all (fun y => roi.h.tmod y == 0)) &&
  ((binSteps maxX).all (fun x => roi.x.tmod x == 0))

/-- The frame-rate assertion of OnyxCamera::build_from_config in camera.rs:
assert!((min..max).contains(&fps)).  Rust's min..max range is half open, so
containment is min ≤ fps and fps < max.  The f64 bounds and the exactly
converted u32 fps are modelled as rationals, on which the comparisons of
the non-NaN floats involved coincide. -/
def fpsRangeCheck (minB maxB fps : ℚ) : Bool :=
  decide (minB ≤ fps) && decide (fps < maxB)

/-- The three outcomes of the frame retrieval attempt in one iteration of
CameraController::start (camera.rs): try_pop_buffer returns no buffer,
or returns a buffer whose into_image conversion succeeds, or returns a
buffer whose conversion fails. -/
inductive PopOutcome where
  | noBuffer : PopOutcome
  | imageOk : PopOutcome
  | imageErr : PopOutcome
deriving DecidableEq

/-- The externally visible driver calls of one iteration of the capture
loop of CameraController::start in camera.rs. -/
inductive CamEvent where
  | whiteBalance : CamEvent
  | trigger : CamEvent
  | stopThread : CamEvent
  | startThread : CamEvent
  | pushBuffer : CamEvent
  | sendPayload : CamEvent
  | sleep : CamEvent
deriving DecidableEq

/-- One iteration of the capture loop of CameraController::start
(camera.rs) as the sequence of driver calls it makes.  configDue models
config_tick.elapsed().as_secs() > config_limit; pop models the outcome of
try_pop_buffer and into_image; deltaMs and intervalMs are the elapsed
and frame-interval milliseconds governing the payload send and sleep. -/
def captureIter (configDue : Bool) (pop : PopOutcome) (deltaMs intervalMs : Nat) :
    List CamEvent :=
  (if configDue then [CamEvent.whiteBalance] else []) ++
  [CamEvent.trigger] ++
  match pop with
  | PopOutcome.noBuffer => []
  | PopOutcome.imageOk =>
    [CamEvent.pushBuffer] ++
    (if deltaMs < intervalMs then [CamEvent.sendPayload, CamEvent.sleep] else [])
  | PopOutcome.imageErr => [CamEvent.stopThread, CamEvent.startThread, CamEvent.pushBuffer]

/-- Closed form of the long-spray while loop: starting from time_to_fire
value ttf with remaining delta, the loop emits one on entry per 100 ms
step, the i-th at ttf + (i + 1) * 100 ms, and the number of steps is
(delta - 1).toNat / 100000 once the loop is entered. -/
theorem longSprayOns_spec (chs : List Nat) (starts ends : Int) :
    ∀ (n : Nat) (ttf delta : Int), delta.toNat ≤ n →
      longSprayOns chs starts ends ttf delta =
        (List.range (if 100000 < delta then (delta - 1).toNat / 100000 else 0)).map
          (fun (i : Nat) =>
            WeedQueueMessage.mk chs (ttf + ((i : Int) + 1) * 100000) true starts ends) := by
  intro n
  induction n with
  | zero =>
    intro ttf delta hd
    rw [longSprayOns]
    have hnot : ¬ 100000 < delta := by omega
    simp [hnot]
  | succ n ih =>
    intro ttf delta hd
    rw [longSprayOns]
    by_cases hlt : 100000 < delta
    · rw [ih (ttf + 100000) (delta - 100000) (by omega)]
      have hcount : (if 100000 < delta - 100000 then (delta - 100000 - 1).toNat / 100000 else 0) + 1
          = (delta - 1).toNat / 100000 := by
        split <;> omega
      rw [dif_pos hlt, if_pos hlt, ← hcount, List.range_succ_eq_map, List.map_cons, List.map_map]
      refine List.cons_eq_cons.mpr ⟨?_, ?_⟩
      · norm_num
      · apply List.map_congr_left
        intro a _
        simp only [Function.comp_apply, WeedQueueMessage.mk.injEq, true_and, and_true]
        push_cast
        ring
    · simp [hlt]

/-- C2: the claim predicts ceil((2 s - 1 s) / 0.1 s) + 1 = 11 queue entries
for an accepted command of duration 2 s, but handle_connection keeps
emitting on pulses while the remaining duration exceeds 100 ms, so a 2 s
command yields 19 on pulses plus one off entry: 20 entries, not 11. -/
theorem c2_counterexample :
    (ingestSpray none 0 (WeedMessage.mk [0] 10000000 12000000)).map List.length = some 20 ∧
    ((12000000 - 10000000 - 1000000) / 100000 + 1 : Int) = 11 ∧
    ¬ (ingestSpray none 0 (WeedMessage.mk [0] 10000000 12000000)).map List.length = some 11 := by
  refine ⟨?_, by norm_num, ?_⟩ <;>
    simp [ingestSpray, remapChannels, convertChannel, longSprayOns]

/-- C2 (amended): for an accepted command with start after now and duration
delta over 1 s, handle_connection enqueues on pulses at start + 100 ms,
start + 200 ms, ... for as long as the remaining duration exceeds 100 ms,
followed by one final off entry at end; the total count is
(delta in microseconds - 1) / 100000 + 1 entries, that is
ceil((delta - 0.1 s) / 0.1 s) + 1 rather than the claimed
ceil((delta - 1 s) / 0.1 s) + 1. -/
theorem ingestSpray_long_count (cmap : Option ChannelMap) (now : Int) (msg : WeedMessage)
    (chs : List Nat)
    (h1 : now < msg.start_spray_time)
    (h2 : remapChannels cmap msg.channels_to_open = some chs)
    (h3 : 1000000 < msg.end_spray_time - msg.start_spray_time) :
    ingestSpray cmap now msg = some (
      (List.range ((msg.end_spray_time - msg.start_spray_time - 1).toNat / 100000)).map
        (fun (i : Nat) =>
          WeedQueueMessage.mk chs (msg.start_spray_time + ((i : Int) + 1) * 100000)
            true msg.start_spray_time msg.end_spray_time) ++
      [WeedQueueMessage.mk chs msg.end_spray_time false
        msg.start_spray_time msg.end_spray_time]) := by
  simp only [ingestSpray, h2]
  rw [if_pos h1, if_pos h3,
    longSprayOns_spec chs msg.start_spray_time msg.end_spray_time
      (msg.end_spray_time - msg.start_spray_time).toNat _ _ le_rfl,
    if_pos (by omega : (100000 : Int) < msg.end_spray_time - msg.start_spray_time)]

/-- Concrete input for the C2 witness: a spray of duration 2.5 s. -/
def c2WitnessMsg : WeedMessage := WeedMessage.mk [0] 1000 2501000

/-- Witness for the amended C2 at a 2.5 s spray: 24 on pulses and one
off entry. -/
theorem c2_witness :
    ingestSpray none 0 c2WitnessMsg = some (
      (List.range ((c2WitnessMsg.end_spray_time - c2WitnessMsg.start_spray_time - 1).toNat / 100000)).map
        (fun (i : Nat) =>
          WeedQueueMessage.mk [1] (c2WitnessMsg.start_spray_time + ((i : Int) + 1) * 100000)
            true c2WitnessMsg.start_spray_time c2WitnessMsg.end_spray_time) ++
      [WeedQueueMessage.mk [1] c2WitnessMsg.end_spray_time false
        c2WitnessMsg.start_spray_time c2WitnessMsg.end_spray_time]) :=
  ingestSpray_long_count none 0 c2WitnessMsg [1] (by decide) (by rfl) (by decide)

/-- C4: an accepted command with start after now and duration at most 1 s
enqueues exactly the two entries (channels, start, on) and
(channels, end, off). -/
theorem ingestSpray_short (cmap : Option ChannelMap) (now : Int) (msg : WeedMessage)
    (chs : List Nat)
    (h1 : now < msg.start_spray_time)
    (h2 : remapChannels cmap msg.channels_to_open = some chs)
    (h3 : msg.end_spray_time - msg.start_spray_time ≤ 1000000) :
    ingestSpray cmap now msg = some
      [WeedQueueMessage.mk chs msg.start_spray_time true
        msg.start_spray_time msg.end_spray_time,
       WeedQueueMessage.mk chs msg.end_spray_time false
        msg.start_spray_time msg.end_spray_time] := by
  simp only [ingestSpray, h2]
  rw [if_pos h1, if_neg (by omega)]

/-- Witness for C4: a 100 ms spray starting at time 100 enqueues its on
entry at 100 and its off entry at 200 on channel 1. -/
theorem c4_witness :
    ingestSpray none 0 (WeedMessage.mk [0] 100 200) = some
      [WeedQueueMessage.mk [1] 100 true 100 200,
       WeedQueueMessage.mk [1] 200 false 100 200] :=
  ingestSpray_short none 0 (WeedMessage.mk [0] 100 200) [1] (by decide) (by rfl) (by decide)

/-- C6: a command whose start_spray_time is not after now is dropped
without touching the queue: handle_connection leaves the queue contents
exactly as they were and does not fail. -/
theorem handleConnection_past_spray_unchanged (cmap : Option ChannelMap) (now : Int)
    (msg : WeedMessage) (queue : List WeedQueueMessage)
    (h : msg.start_spray_time ≤ now) :
    handleConnectionStep cmap now msg queue = some queue := by
  unfold handleConnectionStep ingestSpray
  rw [if_neg (by omega)]
  simp

/-- Witness for C6: a message with start_spray_time equal to now leaves a
one-entry queue untouched. -/
theorem c6_witness :
    handleConnectionStep none 5 (WeedMessage.mk [3] 5 100)
        [WeedQueueMessage.mk [2] 7 true 7 9] =
      some [WeedQueueMessage.mk [2] 7 true 7 9] :=
  handleConnection_past_spray_unchanged none 5 (WeedMessage.mk [3] 5 100)
    [WeedQueueMessage.mk [2] 7 true 7 9] (by decide)

/-- C10: ingestion reads only the wired_channel component of each channel
map entry; two maps that agree on every wired_channel produce identical
queue entries for the same inbound message, whatever their pdm_index
components are. -/
theorem ingest_ignores_pdm_index (m1 m2 : ChannelMap) (now : Int) (msg : WeedMessage)
    (h : ∀ k, (m1 k).map Prod.fst = (m2 k).map Prod.fst) :
    ingestSpray (some m1) now msg = ingestSpray (some m2) now msg := by
  have hconv : ∀ ch, convertChannel (some m1) ch = convertChannel (some m2) ch := by
    intro ch
    simp [convertChannel, h]
  have hremap : ∀ l, remapChannels (some m1) l = remapChannels (some m2) l := by
    intro l
    induction l with
    | nil => rfl
    | cons a t iht => simp [remapChannels, hconv, iht]
  unfold ingestSpray
  rw [hremap]

/-- A channel map sending physical channel 1 to wired channel 24 with
pdm_index 1, for the C10 witness. -/
def c10MapA : ChannelMap := fun k => if k = 1 then some (24, 1) else none

/-- The same wired channels as c10MapA but with pdm_index 0 everywhere,
for the C10 witness. -/
def c10MapB : ChannelMap := fun k => if k = 1 then some (24, 0) else none

/-- Witness for C10: the two concrete maps agree on wired channels,
differ on pdm_index, and ingest a concrete message identically. -/
theorem c10_witness :
    (∀ k, (c10MapA k).map Prod.fst = (c10MapB k).map Prod.fst) ∧
    ingestSpray (some c10MapA) 0 (WeedMessage.mk [0] 100 200) =
      ingestSpray (some c10MapB) 0 (WeedMessage.mk [0] 100 200) := by
  have h : ∀ k, (c10MapA k).map Prod.fst = (c10MapB k).map Prod.fst := by
    intro k
    by_cases hk : k = 1 <;> simp [c10MapA, c10MapB, hk]
  exact ⟨h, ingest_ignores_pdm_index c10MapA c10MapB 0 (WeedMessage.mk [0] 100 200) h⟩

/-- Projection of the actions field of a literal step result. -/
theorem stepActions (a : List Actuation) (q : List WeedQueueMessage) (l : Int) :
    (StepResult.mk a q l).actions = a := rfl

/-- Projection of the queue field of a literal step result. -/
theorem stepQueue (a : List Actuation) (q : List WeedQueueMessage) (l : Int) :
    (StepResult.mk a q l).queue = q := rfl

/-- Projection of the lastFire field of a literal step result. -/
theorem stepLastFire (a : List Actuation) (q : List WeedQueueMessage) (l : Int) :
    (StepResult.mk a q l).lastFire = l := rfl

/-- The C3 property of one firing-loop iteration: the returned last_fire is
never more than 500 ms behind the clock; any iteration entered with more
than 500 ms elapsed returns last_fire reset to now; such an iteration that
does not fire a queue entry issues the heartbeat actuation, pgn 17,
channels 1..=12, duty 0, on both PDM map indices 0 and 1; and any real
actuation resets last_fire. -/
def heartbeatSpec (pdms : Nat → Bool) (queue : List WeedQueueMessage)
    (utcNow monoNow lastFire : Int) : Prop :=
  monoNow - (processMessageQueue pdms queue utcNow monoNow lastFire).lastFire ≤ 500000 ∧
  (500000 < monoNow - lastFire →
    (processMessageQueue pdms queue utcNow monoNow lastFire).lastFire = monoNow) ∧
  ((∀ msg, peekMin queue = some msg →
      msg.time_to_fire < utcNow ∨ SPRAY_BOUND ≤ msg.time_to_fire - utcNow) →
    500000 < monoNow - lastFire →
    Actuation.mk 0 17 heartbeatChannels 0
        ∈ (processMessageQueue pdms queue utcNow monoNow lastFire).actions ∧
      Actuation.mk 1 17 heartbeatChannels 0
        ∈ (processMessageQueue pdms queue utcNow monoNow lastFire).actions) ∧
  (∀ msg, peekMin queue = some msg → ¬ msg.time_to_fire < utcNow →
    msg.time_to_fire - utcNow < SPRAY_BOUND →
    (processMessageQueue pdms queue utcNow monoNow lastFire).lastFire = monoNow)

/-- C3: with both PDMs present, every firing-loop iteration satisfies the
heartbeat discipline: more than 500 ms without a send triggers
actuate(pgn 17, channels 1..=12, duty 0) on both PDMs and resets last_fire,
a real actuation also resets last_fire, and the returned last_fire is
always within 500 ms of the clock. -/
theorem processMessageQueue_heartbeat (pdms : Nat → Bool) (queue : List WeedQueueMessage)
    (utcNow monoNow lastFire : Int) (h0 : pdms 0 = true) (h1 : pdms 1 = true) :
    heartbeatSpec pdms queue utcNow monoNow lastFire := by
  unfold heartbeatSpec processMessageQueue
  cases hpeek : peekMin queue with
  | none =>
    simp only [h0, h1, if_true, stepActions, stepQueue, stepLastFire]
    split_ifs with hhb
    · refine ⟨by simp [stepLastFire], fun _ => rfl, fun _ _ => by simp [stepActions, h0, h1],
        fun msg2 hm2 => by simp at hm2⟩
    · refine ⟨by simp only [stepLastFire]; omega, fun hl => absurd hl hhb,
        fun _ hl => absurd hl hhb, fun msg2 hm2 => by simp at hm2⟩
  | some msg =>
    simp only [h0, h1, if_true]
    by_cases hpast : msg.time_to_fire < utcNow
    · rw [if_pos hpast]
      simp only [stepActions, stepQueue, stepLastFire]
      split_ifs with hhb
      · refine ⟨by simp [stepLastFire], fun _ => rfl, fun _ _ => by simp [stepActions, h0, h1],
          fun msg2 hm2 hnp _ => ?_⟩
        injection hm2 with he
        exact absurd (he ▸ hpast) hnp
      · refine ⟨by simp only [stepLastFire]; omega, fun hl => absurd hl hhb,
          fun _ hl => absurd hl hhb, fun msg2 hm2 hnp _ => ?_⟩
        injection hm2 with he
        exact absurd (he ▸ hpast) hnp
    · rw [if_neg hpast]
      by_cases hwin : msg.time_to_fire - utcNow < SPRAY_BOUND
      · rw [if_pos hwin]
        simp only [stepActions, stepQueue, stepLastFire]
        have hnb : ¬ (500000 : Int) < monoNow - monoNow := by omega
        rw [if_neg hnb]
        refine ⟨by simp only [stepLastFire]; omega, fun _ => rfl, fun hfire hl => ?_,
          fun _ _ _ _ => rfl⟩
        rcases hfire msg rfl with hp | hp
        · exact absurd hp hpast
        · exact absurd hwin (by omega)
      · rw [if_neg hwin]
        simp only [stepActions, stepQueue, stepLastFire]
        split_ifs with hhb
        · refine ⟨by simp [stepLastFire], fun _ => rfl, fun _ _ => by simp [stepActions, h0, h1],
            fun msg2 hm2 hnp hw2 => ?_⟩
          injection hm2 with he
          exact absurd (he ▸ hw2) hwin
        · refine ⟨by simp only [stepLastFire]; omega, fun hl => absurd hl hhb,
            fun _ hl => absurd hl hhb, fun msg2 hm2 hnp hw2 => ?_⟩
          injection hm2 with he
          exact absurd (he ▸ hw2) hwin

/-- Witness for C3: an empty queue, clock at 600001 microseconds and
last_fire at 0 exercise the heartbeat branch with both PDMs present. -/
theorem c3_witness : heartbeatSpec (fun _ => true) [] 0 600001 0 :=
  processMessageQueue_heartbeat (fun _ => true) [] 0 600001 0 rfl rfl

/-- With both PDMs present, the multi-channel branch produces exactly one
actuation per nonempty partition side: the low filter unchanged on PDM 0
and the high filter shifted down by 12 on PDM 1. -/
theorem fireMulti_eq (pdms : Nat → Bool) (channels : List Nat) (isOn : Bool)
    (h0 : pdms 0 = true) (h1 : pdms 1 = true) :
    fireMulti pdms channels isOn =
      (if channels.filter (fun c => decide (c ≤ 12)) = [] then []
       else [Actuation.mk 0 17 (channels.filter (fun c => decide (c ≤ 12)))
               (if isOn then 100 else 0)]) ++
      (if channels.filter (fun c => !decide (c ≤ 12)) = [] then []
       else [Actuation.mk 1 17
               ((channels.filter (fun c => !decide (c ≤ 12))).map (fun c => c - 12))
               (if isOn then 100 else 0)]) := by
  simp only [fireMulti, List.partition_eq_filter_filter, h0, h1, if_true,
    List.isEmpty_iff, Function.comp_def]

/-- C1: with both PDMs present, the multi-channel firing path partitions
the entry channels so that the channels at most 12 go unchanged to the PDM
at map index 0 and the channels above 12 go, reduced by 12, to the PDM at
map index 1, under pgn 17 with the entry duty; no other actuation occurs,
the two partition sides are disjoint and together they are a permutation
of the entry channels. -/
theorem fireMulti_partition_correct (pdms : Nat → Bool) (channels : List Nat) (isOn : Bool)
    (h0 : pdms 0 = true) (h1 : pdms 1 = true) :
    (channels.filter (fun c => decide (c ≤ 12)) ≠ [] →
      Actuation.mk 0 17 (channels.filter (fun c => decide (c ≤ 12))) (if isOn then 100 else 0)
        ∈ fireMulti pdms channels isOn) ∧
    (channels.filter (fun c => !decide (c ≤ 12)) ≠ [] →
      Actuation.mk 1 17 ((channels.filter (fun c => !decide (c ≤ 12))).map (fun c => c - 12))
          (if isOn then 100 else 0)
        ∈ fireMulti pdms channels isOn) ∧
    (∀ a ∈ fireMulti pdms channels isOn,
      a.pgn = 17 ∧ a.duty = (if isOn then 100 else 0) ∧
      ((a.pdmIndex = 0 ∧ a.channels = channels.filter (fun c => decide (c ≤ 12))) ∨
       (a.pdmIndex = 1 ∧
        a.channels = (channels.filter (fun c => !decide (c ≤ 12))).map (fun c => c - 12)))) ∧
    (∀ c ∈ channels, c ≤ 12 → c ∈ channels.filter (fun c => decide (c ≤ 12))) ∧
    (∀ c ∈ channels, 12 < c →
      c - 12 ∈ (channels.filter (fun c => !decide (c ≤ 12))).map (fun c => c - 12)) ∧
    List.Disjoint (channels.filter (fun c => decide (c ≤ 12)))
      (channels.filter (fun c => !decide (c ≤ 12))) ∧
    (channels.filter (fun c => decide (c ≤ 12)) ++
      channels.filter (fun c => !decide (c ≤ 12))).Perm channels := by
  refine ⟨?_, ?_, ?_, ?_, ?_, ?_, ?_⟩
  · intro hne
    rw [fireMulti_eq pdms channels isOn h0 h1, if_neg hne]
    simp
  · intro hne
    rw [fireMulti_eq pdms channels isOn h0 h1, if_neg hne]
    simp
  · intro a ha
    rw [fireMulti_eq pdms channels isOn h0 h1] at ha
    rw [List.mem_append] at ha
    rcases ha with ha | ha <;> split at ha <;>
      simp only [List.mem_singleton, List.not_mem_nil] at ha <;> subst ha <;> simp
  · intro c hc hle
    rw [List.mem_filter]
    exact ⟨hc, by simpa using hle⟩
  · intro c hc hlt
    refine List.mem_map.mpr ⟨c, ?_, rfl⟩
    rw [List.mem_filter]
    refine ⟨hc, by simp; omega⟩
  · intro c hcl hcr
    rw [List.mem_filter] at hcl hcr
    have := hcl.2
    have := hcr.2
    simp_all
  · exact List.filter_append_perm _ channels

/-- The PDM map with both indices present, used by witnesses. -/
def allPdms : Nat → Bool := fun _ => true

/-- Witness for C1: channels [1, 13] with both PDMs present. -/
theorem c1_witness :
    (([1, 13] : List Nat).filter (fun c => decide (c ≤ 12)) ≠ [] →
      Actuation.mk 0 17 (([1, 13] : List Nat).filter (fun c => decide (c ≤ 12)))
          (if true then 100 else 0)
        ∈ fireMulti allPdms [1, 13] true) ∧
    (([1, 13] : List Nat).filter (fun c => !decide (c ≤ 12)) ≠ [] →
      Actuation.mk 1 17
          ((([1, 13] : List Nat).filter (fun c => !decide (c ≤ 12))).map (fun c => c - 12))
          (if true then 100 else 0)
        ∈ fireMulti allPdms [1, 13] true) ∧
    (∀ a ∈ fireMulti allPdms [1, 13] true,
      a.pgn = 17 ∧ a.duty = (if true then 100 else 0) ∧
      ((a.pdmIndex = 0 ∧ a.channels = ([1, 13] : List Nat).filter (fun c => decide (c ≤ 12))) ∨
       (a.pdmIndex = 1 ∧
        a.channels =
          (([1, 13] : List Nat).filter (fun c => !decide (c ≤ 12))).map (fun c => c - 12)))) ∧
    (∀ c ∈ ([1, 13] : List Nat), c ≤ 12 →
      c ∈ ([1, 13] : List Nat).filter (fun c => decide (c ≤ 12))) ∧
    (∀ c ∈ ([1, 13] : List Nat), 12 < c →
      c - 12 ∈ (([1, 13] : List Nat).filter (fun c => !decide (c ≤ 12))).map (fun c => c - 12)) ∧
    List.Disjoint (([1, 13] : List Nat).filter (fun c => decide (c ≤ 12)))
      (([1, 13] : List Nat).filter (fun c => !decide (c ≤ 12))) ∧
    ((([1, 13] : List Nat).filter (fun c => decide (c ≤ 12)) ++
      ([1, 13] : List Nat).filter (fun c => !decide (c ≤ 12)))).Perm [1, 13] :=
  fireMulti_partition_correct allPdms [1, 13] true rfl rfl

/-- C9: on a one-element channel list the dispatch takes the dedicated
single-channel branch, and that branch performs exactly the actuations the
multi-channel partition branch would perform on the same entry, for every
PDM presence pattern, channel value and duty. -/
theorem single_branch_eq_multi_branch (pdms : Nat → Bool) (c : Nat) (isOn : Bool) :
    fireActions pdms [c] isOn = fireSingle pdms c isOn ∧
    fireSingle pdms c isOn = fireMulti pdms [c] isOn := by
  refine ⟨rfl, ?_⟩
  by_cases hc : c ≤ 12 <;>
    simp [fireSingle, fireMulti, List.partition, List.partition.loop, hc]

/-- C5 counterexample: when the software trigger has been issued and
try_pop_buffer returns no buffer, the capture iteration performs no
stop-thread, no start-thread and no buffer push: the loop simply moves to
the next iteration, contradicting the claim that a none pop restarts the
stream. -/
theorem c5_counterexample :
    captureIter false PopOutcome.noBuffer 50 100 = [CamEvent.trigger] ∧
    CamEvent.stopThread ∉ captureIter false PopOutcome.noBuffer 50 100 ∧
    CamEvent.startThread ∉ captureIter false PopOutcome.noBuffer 50 100 := by
  decide

/-- C5 (amended): the capture worker restarts the camera stream, stop
thread then start thread then push a fresh buffer, exactly when a popped
buffer fails to convert into an image; when the non-blocking pop returns
no buffer, the iteration performs no restart and continues. -/
theorem captureIter_restart_policy (configDue : Bool) (deltaMs intervalMs : Nat) :
    captureIter configDue PopOutcome.imageErr deltaMs intervalMs =
      (if configDue then [CamEvent.whiteBalance] else []) ++
      [CamEvent.trigger, CamEvent.stopThread, CamEvent.startThread, CamEvent.pushBuffer] ∧
    captureIter configDue PopOutcome.noBuffer deltaMs intervalMs =
      (if configDue then [CamEvent.whiteBalance] else []) ++ [CamEvent.trigger] := by
  cases configDue <;> exact ⟨rfl, rfl⟩

/-- C7: the build-time binning check of OnyxCamera::build_from_config
accepts an ROI whose width is odd while the X binning steps include 2,
because the X-direction loop asserts divisibility of the x offset rather
than of the width: the ROI with x 0, y 0, w 1281, h 1024 passes both loops
although 1281 is not a multiple of the binning step 2.  The check does not
read the width at all, while it does reject a height that misses the
Y-direction steps. -/
theorem roiBinningAsserts_miss_width :
    roiBinningAsserts (Roi.mk 0 0 1281 1024) 2 2 = true ∧
    (1281 : Int).tmod 2 = 1 ∧
    (∀ w1 w2 : Int, roiBinningAsserts (Roi.mk 0 0 w1 1024) 2 2 =
      roiBinningAsserts (Roi.mk 0 0 w2 1024) 2 2) ∧
    roiBinningAsserts (Roi.mk 0 0 1280 1025) 2 2 = false := by
  refine ⟨by decide, by decide, fun w1 w2 => rfl, by decide⟩

/-- C8 counterexample: with device frame-rate bounds 1 to 30, the
configured fps 30 lies within the inclusive bounds the claim describes,
yet the build-time check rejects it, because assert!((min..max)
.contains(..)) uses a half-open range. -/
theorem c8_counterexample :
    fpsRangeCheck 1 30 30 = false ∧ (1 : ℚ) ≤ 30 ∧ (30 : ℚ) ≤ 30 := by
  refine ⟨by decide, by norm_num, by norm_num⟩

/-- C8 (amended): the frame-rate check of OnyxCamera::build_from_config
passes if and only if min ≤ fps and fps < max: the lower device bound is
inclusive and the upper device bound is exclusive, and any fps outside
that half-open range is fatal at startup. -/
theorem fpsRangeCheck_iff (minB maxB fps : ℚ) :
    fpsRangeCheck minB maxB fps = true ↔ (minB ≤ fps ∧ fps < maxB) := by
  simp [fpsRangeCheck]
